import Mathlib

/-!
Shallow embedding of the zeromq.node socket wrapper (src/zmq.js).

The native handle (build/default/binding), the io watcher and the event
listeners are external collaborators; they are modelled by an oracle
(`HandleOracle`) that fixes, per call index, the value of each read of the
`_ioevents` getter, the outcome of each `recv` and `send` call, the value of
each `_zmq.state` check, and whether emitting an `error` event itself throws.
Loops of `_flush` are run on explicit fuel so every definition is executable;
a run that exhausts its fuel is reported as such, never conflated with a
normal return.
-/

/-- Byte contents of a node Buffer. -/
abbrev Bytes := List Nat

/-- Constant from the native binding: the readable bit of the events mask. -/
def ZMQ_POLLIN : Nat := 1

/-- Constant from the native binding: the writable bit of the events mask. -/
def ZMQ_POLLOUT : Nat := 2

/-- Constant from the native binding: the send flag marking more parts follow. -/
def ZMQ_SNDMORE : Nat := 2

/-- Constant from the native binding: the state value of a usable connection. -/
def STATE_READY : Nat := 0

/-- JS 32-bit bitwise complement of a small constant, used as an and-mask.
The events mask returned by the handle fits in 32 bits. -/
def NOT32 (n : Nat) : Nat := 4294967295 - n

/-- A JS exception value, together with the diagnostic fields the catch block
of `_flush` attaches to it (`e.flags`, `e.outgoing`). -/
structure JsError where
  msg : String
  flags : Option Nat := none
  outgoing : Option String := none
  deriving Repr, DecidableEq

/-- One entry of the `_outgoing` queue: `[part, flags]` as built by `send`. -/
structure Entry where
  payload : Bytes
  flags : Nat
  deriving Repr, DecidableEq

/-- An application-visible event emitted by the wrapper. -/
inductive Event where
  | message (parts : List Bytes)
  | error (e : JsError)
  deriving Repr, DecidableEq

/-- An operation performed on the io watcher. -/
inductive WatchOp where
  | start
  | stop
  deriving Repr, DecidableEq

/-- The io watcher: whether it is running, and the trace of start/stop calls. -/
structure WatcherSt where
  running : Bool
  trace : List WatchOp
  deriving Repr, DecidableEq

/-- State of a Socket wrapper, plus the traces and call counters that tie it
to the oracle: `ioreads`, `recvs`, `nsends`, `stchecks` count the calls made
so far to the `_ioevents` getter, `recv`, `send` and the `state` check;
`sent` is the trace of successfully transmitted entries; `events` the trace
of emitted events. -/
structure Socket where
  inFlush : Bool
  outgoing : List Entry
  ioreads : Nat
  recvs : Nat
  nsends : Nat
  stchecks : Nat
  sent : List Entry
  events : List Event
  watcher : WatcherSt
  deriving Repr, DecidableEq

/-- Oracle model of the native handle and of the error listener: the k-th
read of `_ioevents`, the k-th `recv()` (its bytes and the `_receiveMore`
value observed right after, or the error it throws), the k-th `send` (its
error, if it throws), the k-th `_zmq.state` check, and whether
`emit('error', e)` itself throws and with what. -/
structure HandleOracle where
  ioevents : Nat → Nat
  recvResult : Nat → Except JsError (Bytes × Bool)
  sendResult : Nat → Option JsError
  stateAfter : Nat → Nat
  errorEmitThrows : JsError → Option JsError

/-- Outcome of the receive do-while loop. -/
inductive RecvOut where
  | ok (parts : List Bytes)
  | thrown (e : JsError)
  | fuelOut
  deriving Repr, DecidableEq

/-- Exit of the `while (true)` loop body of `_flush`: normal `break`,
the early return after a not-ready state, a thrown exception, or fuel
exhaustion of the model. -/
inductive LoopExit where
  | brk
  | earlyRet
  | thrown (e : JsError)
  | fuelOut
  deriving Repr, DecidableEq

/-- Outcome of a whole `_flush` call: normal return, a rethrown secondary
exception, or fuel exhaustion of the model. -/
inductive FlushOut where
  | ret
  | threw (e : JsError)
  | fuelOut
  deriving Repr, DecidableEq

/-- Result of the inner send burst: the thrown error if a send failed, the
final value of the `flags` variable, and the new queue, counters and sent
trace. -/
structure SendOut where
  err : Option JsError
  flags : Nat
  outgoing : List Entry
  ioreads : Nat
  nsends : Nat
  sent : List Entry
  deriving Repr, DecidableEq

/-- The receive do-while of `_flush`:
`do { emitArgs.push(new Buffer(this._zmq.recv())); } while (this._receiveMore);`
Consumes recv calls from the oracle starting at counter `recvs`; returns the
collected parts (or the thrown error) and the new counter. -/
def recvLoop (O : HandleOracle) : Nat → Nat → List Bytes → RecvOut × Nat
  | 0, recvs, _ => (.fuelOut, recvs)
  | fuel + 1, recvs, acc =>
    match O.recvResult recvs with
    | .error e => (.thrown e, recvs + 1)
    | .ok (b, more) =>
      if more then recvLoop O fuel (recvs + 1) (acc ++ [b])
      else (.ok (acc ++ [b]), recvs + 1)

/-- Spec-side definition, for refinement against `recvLoop`: one complete
multi-part receive per the spec wording, call `recv()` repeatedly, collecting
each returned byte sequence, continuing while the handle reports
`receiveMore == true`. Returns the ordered parts and the next recv counter;
`none` when the oracle throws or the message does not complete in `fuel`
receives. -/
def specRecvMessage (O : HandleOracle) : Nat → Nat → Option (List Bytes × Nat)
  | 0, _ => none
  | fuel + 1, r =>
    match O.recvResult r with
    | .error _ => none
    | .ok (b, more) =>
      if more then
        match specRecvMessage O fuel (r + 1) with
        | some (ps, rEnd) => some (b :: ps, rEnd)
        | none => none
      else some ([b], r + 1)

/-- The inner send burst of `_flush`:
`while ((flags & ZMQ_POLLOUT) && (this._outgoing.length !== 0)) {
   sendArgs = this._outgoing.shift();
   this._zmq.send.apply(this._zmq, sendArgs);
   flags = this._ioevents; }`
The entry is shifted off the queue before the send; on a throwing send it is
neither restored nor recorded as sent, and the readiness re-read happens only
after a successful send. -/
def sendLoop (O : HandleOracle) : List Entry → Nat → Nat → Nat → List Entry → SendOut
  | outgoing, flags, ioreads, nsends, sent =>
    if flags &&& ZMQ_POLLOUT = 0 then ⟨none, flags, outgoing, ioreads, nsends, sent⟩
    else
      match outgoing with
      | [] => ⟨none, flags, [], ioreads, nsends, sent⟩
      | e :: rest =>
        match O.sendResult nsends with
        | some err => ⟨some err, flags, rest, ioreads, nsends + 1, sent⟩
        | none => sendLoop O rest (O.ioevents ioreads) (ioreads + 1) (nsends + 1) (sent ++ [e])

/-- The readable branch of one `_flush` iteration: run the receive do-while,
then emit a single `message` event carrying all collected parts. On a thrown
recv no event is emitted. -/
def Socket.recvPhase (O : HandleOracle) (fuel : Nat) (s : Socket) : RecvOut × Socket :=
  match recvLoop O fuel s.recvs [] with
  | (.fuelOut, r) => (.fuelOut, {s with recvs := r})
  | (.thrown e, r) => (.thrown e, {s with recvs := r})
  | (.ok parts, r) => (.ok parts, {s with recvs := r, events := s.events ++ [.message parts]})

/-- Apply the send burst to the socket state. -/
def Socket.afterSend (O : HandleOracle) (flags : Nat) (s : Socket) : SendOut × Socket :=
  let r := sendLoop O s.outgoing flags s.ioreads s.nsends s.sent
  (r, {s with outgoing := r.outgoing, ioreads := r.ioreads, nsends := r.nsends, sent := r.sent})

/-- Step b of an iteration: `if (this._outgoing.length === 0) { flags &= ~ZMQ_POLLOUT; }`. -/
def maskFlags (outgoing : List Entry) (flags : Nat) : Nat :=
  if outgoing = [] then flags &&& NOT32 ZMQ_POLLOUT else flags

/-- The `while (true)` loop of `_flush` (the body of the try block), on fuel.
Each iteration reads `_ioevents`, masks out the writable bit when the queue
is empty, breaks when the mask is empty, runs the readable branch (with the
early return when `_zmq.state != STATE_READY`, which clears the guard), then
the send burst, and loops. Thrown exceptions surface with the current value
of the `flags` variable, for the catch block. -/
def Socket.flushLoop (O : HandleOracle) : Nat → Socket → LoopExit × Nat × Socket
  | 0, s => (.fuelOut, 0, s)
  | fuel + 1, s =>
    let flags0 := O.ioevents s.ioreads
    let s1 : Socket := {s with ioreads := s.ioreads + 1}
    let flags := maskFlags s1.outgoing flags0
    if flags = 0 then (.brk, flags, s1)
    else if flags &&& ZMQ_POLLIN ≠ 0 then
      match Socket.recvPhase O fuel s1 with
      | (.fuelOut, s2) => (.fuelOut, flags, s2)
      | (.thrown e, s2) => (.thrown e, flags, s2)
      | (.ok _, s2) =>
        let stv := O.stateAfter s2.stchecks
        let s3 : Socket := {s2 with stchecks := s2.stchecks + 1}
        if stv ≠ STATE_READY then (.earlyRet, flags, {s3 with inFlush := false})
        else
          match Socket.afterSend O flags s3 with
          | (r, s4) =>
            match r.err with
            | some e => (.thrown e, r.flags, s4)
            | none => Socket.flushLoop O fuel s4
    else
      match Socket.afterSend O flags s1 with
      | (r, s4) =>
        match r.err with
        | some e => (.thrown e, r.flags, s4)
        | none => Socket.flushLoop O fuel s4

/-- Model of `util.inspect` applied to the outgoing queue: an explicit
rendering to a string. -/
def utilInspect (q : List Entry) : String := toString (repr q)

/-- `Socket.prototype._flush`: the re-entrancy check, the guarded loop, the
catch block that attaches `e.flags` and `e.outgoing` and emits `error`, the
rethrow of a secondary failure after clearing the guard, and the clearing of
the guard on the normal path. -/
def Socket.flush (O : HandleOracle) (fuel : Nat) (s : Socket) : FlushOut × Socket :=
  if s.inFlush = true then (.ret, s)
  else
    match Socket.flushLoop O fuel {s with inFlush := true} with
    | (.brk, _, s2) => (.ret, {s2 with inFlush := false})
    | (.earlyRet, _, s2) => (.ret, s2)
    | (.fuelOut, _, s2) => (.fuelOut, s2)
    | (.thrown e, fl, s2) =>
      match O.errorEmitThrows {e with flags := some fl, outgoing := some (utilInspect s2.outgoing)} with
      | none =>
        (.ret, {s2 with
          events := s2.events ++
            [.error {e with flags := some fl, outgoing := some (utilInspect s2.outgoing)}],
          inFlush := false})
      | some e3 => (.threw e3, {s2 with inFlush := false})

/-- The queue entries built by `Socket.prototype.send`: one entry per
argument, `flags = 0` ored with `ZMQ_SNDMORE` on every part whose index is
not `length - 1`. -/
def mkParts : List Bytes → List Entry
  | [] => []
  | [b] => [⟨b, 0⟩]
  | b :: rest => ⟨b, 0 ||| ZMQ_SNDMORE⟩ :: mkParts rest

/-- `Socket.prototype.send`: append the whole group to the queue tail
(`this._outgoing = this._outgoing.concat(parts)`), then call `_flush` once. -/
def Socket.send (O : HandleOracle) (fuel : Nat) (parts : List Bytes) (s : Socket) :
    FlushOut × Socket :=
  Socket.flush O fuel {s with outgoing := s.outgoing ++ mkParts parts}

/-- `Socket.prototype.currentSendBacklog`. -/
def Socket.currentSendBacklog (s : Socket) : Nat := s.outgoing.length

/-- `watcher.stop()`. -/
def wStop (w : WatcherSt) : WatcherSt := ⟨false, w.trace ++ [.stop]⟩

/-- `watcher.start()`. -/
def wStart (w : WatcherSt) : WatcherSt := ⟨true, w.trace ++ [.start]⟩

/-- `Socket.prototype.bind`: stop the watcher, run the native async bind,
whose completion callback restarts the watcher and only then hands the error
to the caller's callback. The returned `Option JsError` is the value the
caller's callback receives. -/
def Socket.bind (bindErr : Option JsError) (s : Socket) : Option JsError × Socket :=
  let s1 : Socket := {s with watcher := wStop s.watcher}
  let s2 : Socket := {s1 with watcher := wStart s1.watcher}
  (bindErr, s2)

/-- `Socket.prototype.bindSync`: stop the watcher, run the native sync bind
in a try block; on a throw restart the watcher and rethrow, otherwise
restart the watcher. The returned `Option JsError` is what propagates to the
caller. -/
def Socket.bindSync (syncErr : Option JsError) (s : Socket) : Option JsError × Socket :=
  let s1 : Socket := {s with watcher := wStop s.watcher}
  match syncErr with
  | some e => (some e, {s1 with watcher := wStart s1.watcher})
  | none => (none, {s1 with watcher := wStart s1.watcher})

/-- `Socket.prototype.connect`: `this._zmq.connect(addr);` and nothing else,
in particular no watcher stop or start. -/
def Socket.connect (connErr : Option JsError) (s : Socket) : Option JsError × Socket :=
  (connErr, s)

/-- The `types` table of src/zmq.js, with the numeric values the native
binding exposes for zmq 2.x. -/
def types : List (String × Nat) :=
  [("pub", 1), ("sub", 2), ("req", 3), ("xreq", 5), ("rep", 4), ("xrep", 6),
   ("push", 8), ("pull", 7), ("dealer", 5), ("router", 6), ("pair", 0)]

/-- Modelled from the spec: the native Socket constructor
(build/default/binding, not under src/) receives the numeric type looked up
in the `types` table; per the spec, an unknown socket type name fails fast,
synchronously, with a configuration error, so an absent (undefined) type
value is rejected at construction. -/
def zmqSocketNew (t : Option Nat) : Except JsError Nat :=
  match t with
  | some n => .ok n
  | none => .error ⟨"unknown socket type", none, none⟩

/-- A freshly constructed wrapper: empty queue, guard clear, watcher started. -/
def st0 : Socket := ⟨false, [], 0, 0, 0, 0, [], [], ⟨true, [.start]⟩⟩

/-- Result of `createSocket`: the numeric type, the initial wrapper state and
the options applied onto it. -/
structure Created where
  typeNum : Nat
  sock : Socket
  appliedOptions : List (String × Bytes)
  deriving Repr, DecidableEq

/-- `exports.createSocket`: construct the wrapper (which creates the native
socket from the type-table lookup), then assign the given options. -/
def createSocket (typename : String) (options : List (String × Bytes)) :
    Except JsError Created :=
  match zmqSocketNew (types.lookup typename) with
  | .error e => .error e
  | .ok n => .ok ⟨n, st0, options⟩

/-- Frame of the readable branch: it only changes the recv counter and the
event trace. -/
theorem recvPhase_frame (O : HandleOracle) (fuel : Nat) (s : Socket) :
    ((Socket.recvPhase O fuel s).2).inFlush = s.inFlush ∧
    ((Socket.recvPhase O fuel s).2).watcher = s.watcher ∧
    ((Socket.recvPhase O fuel s).2).outgoing = s.outgoing ∧
    ((Socket.recvPhase O fuel s).2).nsends = s.nsends ∧
    ((Socket.recvPhase O fuel s).2).ioreads = s.ioreads ∧
    ((Socket.recvPhase O fuel s).2).sent = s.sent ∧
    ((Socket.recvPhase O fuel s).2).stchecks = s.stchecks := by
  rcases hrl : recvLoop O fuel s.recvs [] with ⟨out, r⟩
  cases out <;> simp [Socket.recvPhase, hrl]

/-- Frame of the send burst: it only changes the queue, the io-read and send
counters, and the sent trace. -/
theorem afterSend_frame (O : HandleOracle) (flags : Nat) (s : Socket) :
    ((Socket.afterSend O flags s).2).inFlush = s.inFlush ∧
    ((Socket.afterSend O flags s).2).watcher = s.watcher ∧
    ((Socket.afterSend O flags s).2).events = s.events ∧
    ((Socket.afterSend O flags s).2).recvs = s.recvs ∧
    ((Socket.afterSend O flags s).2).stchecks = s.stchecks := by
  simp [Socket.afterSend]

/-- Invariant of the guarded loop: it never touches the watcher, and it
writes the guard only on its early-return exit, where it clears it. -/
theorem flushLoop_inv (O : HandleOracle) :
    ∀ fuel s, ((Socket.flushLoop O fuel s).2.2).watcher = s.watcher ∧
      ((Socket.flushLoop O fuel s).1 = LoopExit.earlyRet →
        ((Socket.flushLoop O fuel s).2.2).inFlush = false) ∧
      ((Socket.flushLoop O fuel s).1 ≠ LoopExit.earlyRet →
        ((Socket.flushLoop O fuel s).2.2).inFlush = s.inFlush) := by
  intro fuel
  induction fuel with
  | zero => intro s; simp [Socket.flushLoop]
  | succ n ih =>
    intro s
    simp only [Socket.flushLoop]
    split
    · simp
    · split
      · -- readable branch
        split
        · rename_i s2 heq
          have hf := recvPhase_frame O n {s with ioreads := s.ioreads + 1}
          rw [heq] at hf
          simp_all
        · rename_i e s2 heq
          have hf := recvPhase_frame O n {s with ioreads := s.ioreads + 1}
          rw [heq] at hf
          simp_all
        · rename_i parts s2 heq
          have hf := recvPhase_frame O n {s with ioreads := s.ioreads + 1}
          rw [heq] at hf
          simp only at hf
          split
          · -- state not ready: early return clears the guard
            simp_all
          · -- state ready: send burst then recursion
            have hg := afterSend_frame O (maskFlags s.outgoing (O.ioevents s.ioreads))
              {s2 with stchecks := s2.stchecks + 1}
            split
            · simp_all
            · constructor
              · rw [(ih _).1, hg.2.1]
                simp [hf.2.1]
              · refine ⟨(ih _).2.1, ?_⟩
                intro hne
                rw [(ih _).2.2 hne, hg.1]
                simp [hf.1]
      · -- writable-only branch: send burst then recursion
        have hg := afterSend_frame O (maskFlags s.outgoing (O.ioevents s.ioreads))
          {s with ioreads := s.ioreads + 1}
        split
        · simp_all
        · constructor
          · rw [(ih _).1, hg.2.1]
          · refine ⟨(ih _).2.1, ?_⟩
            intro hne
            rw [(ih _).2.2 hne, hg.1]

/-- C1: the re-entrancy guard of `_flush`. A call made while a prior
activation is in progress returns immediately with no state change at all
(so no recv, no send, no event emission); otherwise the guard is set on
entry and the final state of every completed activation (normal loop exit,
the early return after a not-ready handle state, and both error paths) has
the guard cleared, so at most one activation executes at a time. -/
theorem c1_flush_guard (O : HandleOracle) (fuel : Nat) (s : Socket) :
    (s.inFlush = true → Socket.flush O fuel s = (.ret, s)) ∧
    (s.inFlush = false → ∀ out s2, Socket.flush O fuel s = (out, s2) →
      out ≠ FlushOut.fuelOut → s2.inFlush = false) := by
  constructor
  · intro h
    simp [Socket.flush, h]
  · intro h out s2 hf hout
    unfold Socket.flush at hf
    rw [if_neg (by simp [h])] at hf
    split at hf
    · rename_i s3 heq
      injection hf with h1 h2
      rw [← h2]
    · rename_i s3 heq
      have hi := flushLoop_inv O fuel {s with inFlush := true}
      rw [heq] at hi
      injection hf with h1 h2
      rw [← h2]
      exact hi.2.1 rfl
    · rename_i s3 heq
      injection hf with h1 h2
      exact absurd h1.symm hout
    · rename_i e fl s3 heq
      split at hf
      · injection hf with h1 h2
        rw [← h2]
      · injection hf with h1 h2
        rw [← h2]

/-- Oracle for the c1 witness: nothing ready, nothing throws. -/
def oC1 : HandleOracle :=
  { ioevents := fun _ => 0
    recvResult := fun _ => .ok ([], false)
    sendResult := fun _ => none
    stateAfter := fun _ => STATE_READY
    errorEmitThrows := fun _ => none }

/-- Witness for c1: a guarded call is a no-op, and an unguarded call ends
with the guard clear. -/
theorem c1_flush_guard_witness :
    Socket.flush oC1 1 {st0 with inFlush := true} = (.ret, {st0 with inFlush := true}) ∧
    ((Socket.flush oC1 1 st0).2).inFlush = false :=
  ⟨(c1_flush_guard oC1 1 {st0 with inFlush := true}).1 rfl,
   (c1_flush_guard oC1 1 st0).2 rfl (Socket.flush oC1 1 st0).1 (Socket.flush oC1 1 st0).2
     rfl (by decide)⟩

/-- The receive do-while of the code refines the spec-side multi-part
receive: whenever the spec run yields a complete message, the code collects
exactly those parts in order, consuming exactly the same recv calls. -/
theorem recvLoop_spec (O : HandleOracle) :
    ∀ fuel r acc parts rEnd, specRecvMessage O fuel r = some (parts, rEnd) →
      recvLoop O fuel r acc = (.ok (acc ++ parts), rEnd) := by
  intro fuel
  induction fuel with
  | zero => intro r acc parts rEnd h; simp [specRecvMessage] at h
  | succ n ih =>
    intro r acc parts rEnd h
    simp only [specRecvMessage] at h
    simp only [recvLoop]
    cases hr : O.recvResult r with
    | error e => rw [hr] at h; simp at h
    | ok p =>
      obtain ⟨b, more⟩ := p
      rw [hr] at h
      cases more with
      | false =>
        simp at h ⊢
        exact h
      | true =>
        simp only [if_pos] at h ⊢
        cases hs : specRecvMessage O n (r + 1) with
        | none => rw [hs] at h; simp at h
        | some q =>
          obtain ⟨ps, rE⟩ := q
          rw [hs] at h
          simp at h
          have := ih (r + 1) (acc ++ [b]) ps rE hs
          rw [← h.2]
          rw [this, ← h.1]
          simp

/-- Converse refinement: whenever the code's do-while completes normally,
the spec-side receive yields the same parts and end counter. -/
theorem recvLoop_spec_conv (O : HandleOracle) :
    ∀ fuel r acc parts rEnd, recvLoop O fuel r acc = (.ok parts, rEnd) →
      ∃ ps, parts = acc ++ ps ∧ specRecvMessage O fuel r = some (ps, rEnd) := by
  intro fuel
  induction fuel with
  | zero => intro r acc parts rEnd h; simp [recvLoop] at h
  | succ n ih =>
    intro r acc parts rEnd h
    simp only [recvLoop] at h
    simp only [specRecvMessage]
    cases hr : O.recvResult r with
    | error e => rw [hr] at h; simp at h
    | ok p =>
      obtain ⟨b, more⟩ := p
      rw [hr] at h
      cases more with
      | false =>
        simp at h ⊢
        exact ⟨[b], h.1.symm, rfl, h.2⟩
      | true =>
        simp only [if_pos] at h ⊢
        obtain ⟨ps, hps, hspec⟩ := ih (r + 1) (acc ++ [b]) parts rEnd h
        rw [hspec]
        refine ⟨b :: ps, ?_, rfl⟩
        rw [hps]
        simp

/-- C2: a dispatch activation whose readable branch runs performs one
complete multi-part receive: recv is called repeatedly exactly while the
handle reports receiveMore, then exactly one `message` event is appended
carrying the ordered parts; the emitted parts equal exactly the sequence the
handle produced (both refinement directions), and no `message` event is
emitted when the collection did not complete (thrown recv or exhausted
model fuel). -/
theorem c2_multipart_receive (O : HandleOracle) (fuel : Nat) (s : Socket) :
    (∀ parts rEnd, specRecvMessage O fuel s.recvs = some (parts, rEnd) →
      Socket.recvPhase O fuel s =
        (.ok parts, {s with recvs := rEnd, events := s.events ++ [.message parts]})) ∧
    (∀ parts s2, Socket.recvPhase O fuel s = (.ok parts, s2) →
      ∃ rEnd, specRecvMessage O fuel s.recvs = some (parts, rEnd) ∧
        s2 = {s with recvs := rEnd, events := s.events ++ [.message parts]}) ∧
    (∀ e s2, Socket.recvPhase O fuel s = (.thrown e, s2) → s2.events = s.events) ∧
    (∀ s2, Socket.recvPhase O fuel s = (.fuelOut, s2) → s2.events = s.events) := by
  refine ⟨?_, ?_, ?_, ?_⟩
  · intro parts rEnd h
    have hr := recvLoop_spec O fuel s.recvs [] parts rEnd h
    simp at hr
    simp [Socket.recvPhase, hr]
  · intro parts s2 h
    unfold Socket.recvPhase at h
    split at h
    · simp at h
    · simp at h
    · rename_i parts0 r heq
      injection h with h1 h2
      injection h1 with h1
      obtain ⟨ps, hps, hspec⟩ := recvLoop_spec_conv O fuel s.recvs [] parts0 r heq
      simp at hps
      refine ⟨r, ?_, ?_⟩
      · rw [← h1, hps]
        exact hspec
      · rw [← h2, ← h1]
  · intro e s2 h
    unfold Socket.recvPhase at h
    split at h
    · simp at h
    · injection h with h1 h2
      rw [← h2]
    · simp at h
  · intro s2 h
    unfold Socket.recvPhase at h
    split at h
    · injection h with h1 h2
      rw [← h2]
    · simp at h
    · simp at h

/-- Oracle for the c2 witness: the handle produces a two-part message. -/
def oC2 : HandleOracle :=
  { ioevents := fun _ => 0
    recvResult := fun n => if n = 0 then .ok ([1], true) else .ok ([2], false)
    sendResult := fun _ => none
    stateAfter := fun _ => STATE_READY
    errorEmitThrows := fun _ => none }

/-- Witness for c2: both parts are collected before the single message
event is emitted. -/
theorem c2_multipart_receive_witness :
    Socket.recvPhase oC2 2 st0 =
      (.ok [[1], [2]], {st0 with recvs := 2, events := [.message [[1], [2]]]}) :=
  (c2_multipart_receive oC2 2 st0).1 [[1], [2]] 2 (by decide)

/-- With readiness always writable and all sends succeeding, the send burst
transmits the entire queue, in order, at the tail of the sent trace. -/
theorem sendLoop_drain (O : HandleOracle) (hio : ∀ n, O.ioevents n = ZMQ_POLLOUT)
    (hs : ∀ n, O.sendResult n = none) :
    ∀ outgoing flags ioreads nsends sent, flags &&& ZMQ_POLLOUT ≠ 0 →
      ∃ fl, sendLoop O outgoing flags ioreads nsends sent =
        ⟨none, fl, [], ioreads + outgoing.length, nsends + outgoing.length, sent ++ outgoing⟩ := by
  intro outgoing
  induction outgoing with
  | nil =>
    intro flags ioreads nsends sent hw
    refine ⟨flags, ?_⟩
    simp [sendLoop, if_neg hw]
  | cons e rest ih =>
    intro flags ioreads nsends sent hw
    obtain ⟨fl, hrec⟩ := ih (O.ioevents ioreads) (ioreads + 1) (nsends + 1) (sent ++ [e])
      (by rw [hio]; decide)
    refine ⟨fl, ?_⟩
    simp only [sendLoop, if_neg hw, hs]
    rw [hrec]
    simp [Nat.add_assoc, Nat.add_comm 1]

/-- An iteration that starts with an empty queue masks the writable bit out
and breaks at once: no send happens and the loop ends. -/
theorem flushLoop_empty_writable (O : HandleOracle) (s : Socket) (n : Nat)
    (h1 : s.outgoing = []) (h2 : O.ioevents s.ioreads = ZMQ_POLLOUT) :
    Socket.flushLoop O (n + 1) s = (.brk, 0, {s with ioreads := s.ioreads + 1}) := by
  have hm : maskFlags s.outgoing (O.ioevents s.ioreads) = 0 := by
    rw [h2, maskFlags, if_pos h1]
    decide
  simp only [Socket.flushLoop, hm]
  simp

/-- Under readiness that always reports exactly writable and sends that all
succeed, the guarded loop drains the whole queue and then breaks (the next
iteration masks the writable bit out on the now-empty queue). -/
theorem flushLoop_writable_drain (O : HandleOracle) (hio : ∀ n, O.ioevents n = ZMQ_POLLOUT)
    (hs : ∀ n, O.sendResult n = none) (s : Socket) (k : Nat) :
    ∃ s2, Socket.flushLoop O (k + 2) s = (.brk, 0, s2) ∧
      s2.sent = s.sent ++ s.outgoing ∧ s2.outgoing = [] ∧ s2.inFlush = s.inFlush ∧
      s2.events = s.events ∧ s2.watcher = s.watcher := by
  cases h : s.outgoing with
  | nil =>
    refine ⟨{s with ioreads := s.ioreads + 1}, ?_, by simp [h], by simp [h], rfl, rfl, rfl⟩
    exact flushLoop_empty_writable O s (k + 1) h (hio s.ioreads)
  | cons e rest =>
    have hm : maskFlags s.outgoing (O.ioevents s.ioreads) = ZMQ_POLLOUT := by
      rw [hio, maskFlags, if_neg (by rw [h]; simp)]
    obtain ⟨fl, hdrain⟩ := sendLoop_drain O hio hs s.outgoing ZMQ_POLLOUT (s.ioreads + 1)
      s.nsends s.sent (by decide)
    have hz : ZMQ_POLLOUT &&& NOT32 ZMQ_POLLOUT = 0 := by decide
    rw [show k + 2 = (k + 1) + 1 from rfl]
    simp only [Socket.flushLoop, hm]
    rw [if_neg (by decide), if_neg (by decide)]
    simp only [Socket.afterSend]
    rw [hdrain]
    simp [maskFlags, hio, hz]
    exact h

/-- C3: strict FIFO draining. Enqueuing groups g1 then g2 and flushing under
readiness that always reports exactly writable, with sends succeeding,
produces handle sends in exactly the order g1 parts then g2 parts, emptying
the queue; and the burst re-reads readiness after every single send,
stopping as soon as the freshly read mask no longer reports writable, with
the remaining entries still queued. -/
theorem c3_fifo_order (O : HandleOracle) (g1 g2 : List Bytes) (s : Socket) (fuel : Nat)
    (hio : ∀ n, O.ioevents n = ZMQ_POLLOUT)
    (hsend : ∀ n, O.sendResult n = none)
    (hq : s.outgoing = mkParts g1 ++ mkParts g2)
    (hg : s.inFlush = false)
    (hfuel : 2 ≤ fuel) :
    (∃ s2, Socket.flush O fuel s = (.ret, s2) ∧
      s2.sent = s.sent ++ (mkParts g1 ++ mkParts g2) ∧ s2.outgoing = []) ∧
    (∀ O2 : HandleOracle, ∀ e rest flags ioreads nsends sent,
      flags &&& ZMQ_POLLOUT ≠ 0 → O2.sendResult nsends = none →
      O2.ioevents ioreads &&& ZMQ_POLLOUT = 0 →
      sendLoop O2 (e :: rest) flags ioreads nsends sent =
        ⟨none, O2.ioevents ioreads, rest, ioreads + 1, nsends + 1, sent ++ [e]⟩) := by
  constructor
  · obtain ⟨k, rfl⟩ : ∃ k, fuel = k + 2 := ⟨fuel - 2, by omega⟩
    obtain ⟨s2, hloop, hsent, hout, hin, hev, hw⟩ :=
      flushLoop_writable_drain O hio hsend {s with inFlush := true} k
    refine ⟨{s2 with inFlush := false}, ?_, ?_, ?_⟩
    · unfold Socket.flush
      rw [if_neg (by simp [hg]), hloop]
    · simp at hsent
      rw [hsent, hq]
    · exact hout
  · intro O2 e rest flags ioreads nsends sent hw hsr hnw
    simp [sendLoop, hsr, hnw, hw]
    rw [sendLoop.eq_def]
    simp [hnw]

/-- Oracle for the c3 witness: always exactly writable, sends succeed. -/
def oC3 : HandleOracle :=
  { ioevents := fun _ => ZMQ_POLLOUT
    recvResult := fun _ => .ok ([], false)
    sendResult := fun _ => none
    stateAfter := fun _ => STATE_READY
    errorEmitThrows := fun _ => none }

/-- Witness for c3: groups [[1],[2]] then [[3]] drain in exactly that
order. -/
theorem c3_fifo_order_witness :
    (∃ s2, Socket.flush oC3 2 {st0 with outgoing := mkParts [[1], [2]] ++ mkParts [[3]]} =
        (.ret, s2) ∧
      s2.sent = mkParts [[1], [2]] ++ mkParts [[3]] ∧ s2.outgoing = []) ∧
    sendLoop oC3 [⟨[7], 0⟩, ⟨[8], 0⟩] ZMQ_POLLOUT 0 0 [] =
      ⟨none, ZMQ_POLLOUT, [], 2, 2, [⟨[7], 0⟩, ⟨[8], 0⟩]⟩ := by
  have h := c3_fifo_order oC3 [[1], [2]] [[3]]
    {st0 with outgoing := mkParts [[1], [2]] ++ mkParts [[3]]} 2
    (fun _ => rfl) (fun _ => rfl) rfl rfl (by decide)
  obtain ⟨⟨s2, h1, h2, h3⟩, _⟩ := h
  exact ⟨⟨s2, h1, by simpa using h2, h3⟩, by decide⟩

/-- C6: a dispatch activation that starts with an empty outgoing queue and
readiness reporting exactly writable masks the writable bit out of the local
flags copy, performs zero handle send calls, and terminates at once with a
normal return (for every sufficient fuel, so the loop does not spin). -/
theorem c6_empty_queue_writable (O : HandleOracle) (s : Socket) (fuel : Nat)
    (h1 : s.outgoing = []) (h2 : s.inFlush = false)
    (h3 : O.ioevents s.ioreads = ZMQ_POLLOUT) (h4 : 1 ≤ fuel) :
    Socket.flush O fuel s = (.ret, {s with ioreads := s.ioreads + 1}) := by
  obtain ⟨k, rfl⟩ : ∃ k, fuel = k + 1 := ⟨fuel - 1, by omega⟩
  unfold Socket.flush
  rw [if_neg (by simp [h2]),
    flushLoop_empty_writable O {s with inFlush := true} k (by simpa using h1)
      (by simpa using h3)]
  cases s
  simp_all

/-- Oracle for the c6 witness. -/
def oC6 : HandleOracle :=
  { ioevents := fun _ => ZMQ_POLLOUT
    recvResult := fun _ => .ok ([], false)
    sendResult := fun _ => none
    stateAfter := fun _ => STATE_READY
    errorEmitThrows := fun _ => none }

/-- Witness for c6: empty queue, writable-only readiness, immediate normal
return with no send performed. -/
theorem c6_empty_queue_writable_witness :
    Socket.flush oC6 1 st0 = (.ret, {st0 with ioreads := 1}) :=
  c6_empty_queue_writable oC6 st0 1 rfl rfl rfl (by decide)

/-- The queue group built by `send` has one entry per part. -/
theorem mkParts_length (ps : List Bytes) : (mkParts ps).length = ps.length := by
  induction ps with
  | nil => rfl
  | cons b rest ih =>
    cases rest with
    | nil => rfl
    | cons c rest2 => simp only [mkParts, List.length_cons] at ih ⊢; omega

/-- The queue group built by `send` carries the payloads in argument order. -/
theorem mkParts_payloads (ps : List Bytes) : (mkParts ps).map Entry.payload = ps := by
  induction ps with
  | nil => rfl
  | cons b rest ih =>
    cases rest with
    | nil => rfl
    | cons c rest2 =>
      simp only [mkParts, List.map_cons] at ih ⊢
      rw [ih]

/-- The group has the more flag on every part but the last, which gets 0. -/
theorem mkParts_split : ∀ (ps : List Bytes) (h : ps ≠ []),
    mkParts ps = (ps.dropLast.map fun b => Entry.mk b ZMQ_SNDMORE) ++ [⟨ps.getLast h, 0⟩] := by
  intro ps
  induction ps with
  | nil => intro h; exact absurd rfl h
  | cons b rest ih =>
    intro h
    cases rest with
    | nil => simp [mkParts]
    | cons c rest2 =>
      rw [show mkParts (b :: c :: rest2) = ⟨b, 0 ||| ZMQ_SNDMORE⟩ :: mkParts (c :: rest2)
        from rfl]
      rw [ih (by simp)]
      rw [List.getLast_cons (show c :: rest2 ≠ [] by simp)]
      simp [Nat.zero_or]

/-- C4: `send(p1, ..., pN)` with N parts builds exactly N queue entries, in
argument order, with the more flag on every entry but the last (which gets
flags 0), appends the whole group at the queue tail in one step, and then
makes exactly one `_flush` call on the so-extended state. -/
theorem c4_send_enqueue (O : HandleOracle) (fuel : Nat) (ps : List Bytes) (s : Socket)
    (h : ps ≠ []) :
    (mkParts ps).length = ps.length ∧
    (mkParts ps).map Entry.payload = ps ∧
    mkParts ps = (ps.dropLast.map fun b => Entry.mk b ZMQ_SNDMORE) ++ [⟨ps.getLast h, 0⟩] ∧
    Socket.send O fuel ps s = Socket.flush O fuel {s with outgoing := s.outgoing ++ mkParts ps} :=
  ⟨mkParts_length ps, mkParts_payloads ps, mkParts_split ps h, rfl⟩

/-- Witness for c4 at the two-part call send([1], [2]). -/
theorem c4_send_enqueue_witness :
    (mkParts [[1], [2]]).length = 2 ∧
    (mkParts [[1], [2]]).map Entry.payload = [[1], [2]] ∧
    mkParts [[1], [2]] = [⟨[1], ZMQ_SNDMORE⟩, ⟨[2], 0⟩] ∧
    Socket.send oC1 1 [[1], [2]] st0 =
      Socket.flush oC1 1 {st0 with outgoing := mkParts [[1], [2]]} := by
  have h := c4_send_enqueue oC1 1 [[1], [2]] st0 (by decide)
  refine ⟨h.1, h.2.1, ?_, h.2.2.2⟩
  have h3 := h.2.2.1
  simpa using h3

/-- C5: an exception thrown inside the guarded loop is caught; the catch
block attaches the readiness flags at failure time and the rendering of the
pending outgoing queue to it, then emits an `error` event carrying it; when
that emission itself throws, the guard is cleared before the secondary
failure propagates to the caller. -/
theorem c5_error_containment (O : HandleOracle) (fuel : Nat) (s : Socket) (e : JsError)
    (fl : Nat) (s2 : Socket)
    (h1 : s.inFlush = false)
    (h2 : Socket.flushLoop O fuel {s with inFlush := true} = (.thrown e, fl, s2)) :
    (O.errorEmitThrows {e with flags := some fl, outgoing := some (utilInspect s2.outgoing)} =
        none →
      Socket.flush O fuel s = (.ret, {s2 with
        events := s2.events ++
          [.error {e with flags := some fl, outgoing := some (utilInspect s2.outgoing)}],
        inFlush := false})) ∧
    (∀ e2, O.errorEmitThrows
        {e with flags := some fl, outgoing := some (utilInspect s2.outgoing)} = some e2 →
      Socket.flush O fuel s = (.threw e2, {s2 with inFlush := false})) := by
  constructor
  · intro hemit
    unfold Socket.flush
    rw [if_neg (by simp [h1]), h2]
    simp [hemit]
  · intro e2 hemit
    unfold Socket.flush
    rw [if_neg (by simp [h1]), h2]
    simp [hemit]

/-- Oracle for the c5 and c10 witnesses: readable readiness, recv throws,
the error listener does not. -/
def oC5 : HandleOracle :=
  { ioevents := fun _ => ZMQ_POLLIN
    recvResult := fun _ => .error ⟨"EFSM", none, none⟩
    sendResult := fun _ => none
    stateAfter := fun _ => STATE_READY
    errorEmitThrows := fun _ => none }

/-- Witness for c5: a throwing recv surfaces as one `error` event with the
readiness flags and the queue rendering attached, guard clear afterwards. -/
theorem c5_error_containment_witness :
    Socket.flush oC5 2 st0 =
      (.ret,
        {st0 with
          ioreads := 1
          recvs := 1
          events := [.error ⟨"EFSM", some 1, some (utilInspect [])⟩]}) := by
  have h := (c5_error_containment oC5 2 st0 ⟨"EFSM", none, none⟩ 1
      {st0 with inFlush := true, ioreads := 1, recvs := 1} rfl (by decide)).1 rfl
  simpa using h

/-- C10: when the caught error is emitted and the listener does not throw,
the activation ends right there with a normal return: the counters of recv
and send calls and the traces are exactly those at the moment of the throw
(the drain loop is not resumed), and the guard is clear. -/
theorem c10_error_stops_activation (O : HandleOracle) (fuel : Nat) (s : Socket)
    (e : JsError) (fl : Nat) (s2 : Socket)
    (h1 : s.inFlush = false)
    (h2 : Socket.flushLoop O fuel {s with inFlush := true} = (.thrown e, fl, s2))
    (h3 : O.errorEmitThrows
      {e with flags := some fl, outgoing := some (utilInspect s2.outgoing)} = none) :
    ∃ s3, Socket.flush O fuel s = (.ret, s3) ∧ s3.recvs = s2.recvs ∧ s3.nsends = s2.nsends ∧
      s3.sent = s2.sent ∧ s3.outgoing = s2.outgoing ∧ s3.inFlush = false ∧
      s3.events = s2.events ++
        [.error {e with flags := some fl, outgoing := some (utilInspect s2.outgoing)}] := by
  have hfl : Socket.flush O fuel s =
      (.ret,
        {s2 with
          events := s2.events ++
            [.error {e with flags := some fl, outgoing := some (utilInspect s2.outgoing)}]
          inFlush := false}) := by
    unfold Socket.flush
    rw [if_neg (by simp [h1]), h2]
    simp [h3]
  exact ⟨_, hfl, by simp, by simp, by simp, by simp, by simp, by simp⟩

/-- Witness for c10: the activation of the c5 scenario stops at the throw
point, with no further recv or send calls. -/
theorem c10_error_stops_activation_witness :
    ∃ s3, Socket.flush oC5 2 st0 = (.ret, s3) ∧ s3.recvs = 1 ∧ s3.nsends = 0 ∧
      s3.sent = [] ∧ s3.outgoing = [] ∧ s3.inFlush = false ∧
      s3.events = [.error ⟨"EFSM", some 1, some (utilInspect [])⟩] := by
  obtain ⟨s3, ha, hb, hc, hd, he, hf, hg⟩ := c10_error_stops_activation oC5 2 st0
    ⟨"EFSM", none, none⟩ 1 {st0 with inFlush := true, ioreads := 1, recvs := 1}
    rfl (by decide) rfl
  exact ⟨s3, ha, hb, hc, hd, he, hf, by simpa using hg⟩

/-- The dispatch engine never touches the watcher: `_flush` contains no
watcher operation on any path. -/
theorem flush_watcher (O : HandleOracle) (fuel : Nat) (s : Socket) :
    ((Socket.flush O fuel s).2).watcher = s.watcher := by
  unfold Socket.flush
  split
  · rfl
  · rcases hl : Socket.flushLoop O fuel {s with inFlush := true} with ⟨ex, fl, s3⟩
    have hi := flushLoop_inv O fuel {s with inFlush := true}
    rw [hl] at hi
    simp only at hi
    cases ex with
    | brk => simpa using hi.1
    | earlyRet => simpa using hi.1
    | fuelOut => simpa using hi.1
    | thrown e =>
      cases hEm : O.errorEmitThrows
          {e with flags := some fl, outgoing := some (utilInspect s3.outgoing)} with
      | none => simpa [hEm] using hi.1
      | some e3 => simpa [hEm] using hi.1

/-- A send burst in which the first sends succeed and then one throws: the
queue loses exactly the entries already transmitted plus the popped in-flight
entry; the entries after the failing one stay queued, in order. -/
theorem sendLoop_fail (O : HandleOracle) (err : JsError)
    (hio : ∀ n, O.ioevents n = ZMQ_POLLOUT) :
    ∀ pre x post ioreads nsends sent,
      (∀ k, k < pre.length → O.sendResult (nsends + k) = none) →
      O.sendResult (nsends + pre.length) = some err →
      sendLoop O (pre ++ x :: post) ZMQ_POLLOUT ioreads nsends sent =
        ⟨some err, ZMQ_POLLOUT, post, ioreads + pre.length, nsends + pre.length + 1,
         sent ++ pre⟩ := by
  intro pre
  induction pre with
  | nil =>
    intro x post ioreads nsends sent hok hfail
    simp at hfail
    simp [sendLoop, hfail]
    decide
  | cons p pre2 ih =>
    intro x post ioreads nsends sent hok hfail
    have h0 : O.sendResult nsends = none := by simpa using hok 0 (by simp)
    have hok2 : ∀ k, k < pre2.length → O.sendResult (nsends + 1 + k) = none := by
      intro k hk
      rw [show nsends + 1 + k = nsends + (k + 1) by omega]
      exact hok (k + 1) (by simp; omega)
    have hfail2 : O.sendResult (nsends + 1 + pre2.length) = some err := by
      rw [show nsends + 1 + pre2.length = nsends + (p :: pre2).length by simp; omega]
      exact hfail
    have hrec := ih x post (ioreads + 1) (nsends + 1) (sent ++ [p]) hok2 hfail2
    simp only [List.cons_append, sendLoop, h0]
    rw [if_neg (by decide), hio ioreads]
    simp only [List.append_eq]
    rw [hrec]
    simp
    constructor
    · omega
    · omega

/-- First queue entry of the c7 scenario. -/
def eA : Entry := ⟨[1], 0⟩

/-- Second queue entry of the c7 scenario. -/
def eB : Entry := ⟨[2], 0⟩

/-- Oracle for c7: always writable, every send throws. -/
def oC7 : HandleOracle :=
  { ioevents := fun _ => ZMQ_POLLOUT
    recvResult := fun _ => .ok ([], false)
    sendResult := fun _ => some ⟨"EINVAL", none, none⟩
    stateAfter := fun _ => STATE_READY
    errorEmitThrows := fun _ => none }

/-- Socket state for c7: two queued entries. -/
def sC7 : Socket := {st0 with outgoing := [eA, eB]}

/-- Counterexample to c7 as stated: with entries eA, eB queued and the first
send throwing, nothing was transmitted, yet the queue afterwards holds only
eB — eA was shifted off before the failing send and is lost, so the queue
does not contain exactly the entries not yet transmitted. -/
theorem c7_counterexample :
    (Socket.flush oC7 2 sC7).2.sent = [] ∧
    (Socket.flush oC7 2 sC7).2.outgoing = [eB] ∧
    ¬ ((Socket.flush oC7 2 sC7).2.outgoing = [eA, eB]) := by
  refine ⟨?_, ?_, ?_⟩ <;> decide

/-- C7 amended: on a send burst failure the socket aborts mid-burst with the
exception carrying on; the queue afterwards holds exactly the entries after
the failing one (the popped in-flight entry is lost, the already transmitted
ones are in the sent trace), and the watcher is left intact — `_flush` never
touches the watcher on any path. -/
theorem c7_amended_send_error (O : HandleOracle) (err : JsError) (pre post : List Entry)
    (x : Entry) (s : Socket) (fuel : Nat)
    (hio : ∀ n, O.ioevents n = ZMQ_POLLOUT)
    (hok : ∀ k, k < pre.length → O.sendResult (s.nsends + k) = none)
    (hfail : O.sendResult (s.nsends + pre.length) = some err)
    (hq : s.outgoing = pre ++ x :: post)
    (hfl : s.inFlush = false) (hfuel : 1 ≤ fuel) :
    (∃ s2, Socket.flushLoop O fuel {s with inFlush := true} =
        (.thrown err, ZMQ_POLLOUT, s2) ∧
      s2.outgoing = post ∧ s2.sent = s.sent ++ pre ∧ s2.watcher = s.watcher) ∧
    (∀ O3 fuel3 s3, ((Socket.flush O3 fuel3 s3).2).watcher = s3.watcher) := by
  constructor
  · obtain ⟨k, rfl⟩ : ∃ k, fuel = k + 1 := ⟨fuel - 1, by omega⟩
    have hm : maskFlags s.outgoing (O.ioevents s.ioreads) = ZMQ_POLLOUT := by
      rw [hio, maskFlags, if_neg (by rw [hq]; simp)]
    have hsf := sendLoop_fail O err hio pre x post (s.ioreads + 1) s.nsends s.sent hok hfail
    simp only [Socket.flushLoop, hm]
    rw [if_neg (by decide), if_neg (by decide)]
    simp only [Socket.afterSend]
    rw [hq, hsf]
    simp
  · intro O3 fuel3 s3
    exact flush_watcher O3 fuel3 s3

/-- Witness for the amended c7: pre is empty, the first send throws, eA is
lost and eB stays queued; the watcher is untouched. -/
theorem c7_amended_send_error_witness :
    ∃ s2, Socket.flushLoop oC7 1 {sC7 with inFlush := true} =
        (.thrown ⟨"EINVAL", none, none⟩, ZMQ_POLLOUT, s2) ∧
      s2.outgoing = [eB] ∧ s2.sent = [] ∧ s2.watcher = sC7.watcher := by
  obtain ⟨⟨s2, h1, h2, h3, h4⟩, _⟩ := c7_amended_send_error oC7 ⟨"EINVAL", none, none⟩ []
    [eB] eA sC7 1 (fun _ => rfl) (fun k hk => absurd hk (Nat.not_lt_zero k)) rfl rfl rfl
    (by decide)
  exact ⟨s2, h1, h2, by simpa using h3, h4⟩

/-- Counterexample to c8 as stated: `connect` performs no watcher stop and no
restart — called with a stopped watcher it records no watcher operation and
leaves it stopped, contradicting the stop-then-restart contract claimed for
connect. -/
theorem c8_counterexample :
    ¬ (WatchOp.stop ∈
        ((Socket.connect none {st0 with watcher := ⟨false, []⟩}).2).watcher.trace ∧
      ((Socket.connect none {st0 with watcher := ⟨false, []⟩}).2).watcher.running = true) := by
  decide

/-- C8 amended: `bind` and `bindSync` stop the watcher before the native
operation and restart it in all cases — including failure — before the error
reaches the caller; `connect` runs the native connect directly and does not
touch the watcher at all. -/
theorem c8_amended_watcher_lifecycle (s : Socket) :
    (∀ err, Socket.bind err s =
      (err, {s with watcher := ⟨true, s.watcher.trace ++ [.stop, .start]⟩})) ∧
    (∀ err, Socket.bindSync err s =
      (err, {s with watcher := ⟨true, s.watcher.trace ++ [.stop, .start]⟩})) ∧
    (∀ err, Socket.connect err s = (err, s)) := by
  refine ⟨?_, ?_, ?_⟩
  · intro err
    simp [Socket.bind, wStop, wStart]
  · intro err
    cases err <;> simp [Socket.bindSync, wStop, wStart]
  · intro err
    rfl

/-- C9: a typeName that is not a key of the socket-type table makes
createSocket fail synchronously with the configuration error, and no socket
value is produced. -/
theorem c9_unknown_type (name : String) (opts : List (String × Bytes))
    (h : types.lookup name = none) :
    createSocket name opts = .error ⟨"unknown socket type", none, none⟩ := by
  unfold createSocket
  rw [h]
  rfl

/-- Witness for c9 at the unknown name bogus. -/
theorem c9_unknown_type_witness :
    createSocket "bogus" [] = .error ⟨"unknown socket type", none, none⟩ :=
  c9_unknown_type "bogus" [] (by decide)
